import Mathlib

/-!
Verification of `migrate-parameter-store` (src/main.go).

The program copies AWS SSM parameters from an old naming hierarchy to a
new one.  We embed it shallowly: the SSM client is an abstract record of
response functions, and every function of `main.go` is translated to a
Lean function returning its result together with the list of store
operations it issued (its trace).  Machine-level concerns (AWS transport,
printing) are outside the embedding; errors are strings as in Go's
`fmt.Errorf` wrapping.
-/

/-- SSM parameter types (`types.ParameterType`): String, StringList,
SecureString. -/
inductive ParamType where
  | string
  | stringList
  | secureString
deriving DecidableEq, Repr

/-- `types.Parameter` as used by the program: name, (decrypted) value and
type.  (`ptype` because `type` is a Lean keyword.) -/
structure Parameter where
  name : String
  value : String
  ptype : ParamType
deriving DecidableEq, Repr

/-- `types.ParameterMetadata` as used by the program: name and optional
description (`Description *string`, `nil` modelled as `none`). -/
structure ParameterMetadata where
  name : String
  description : Option String
deriving DecidableEq, Repr

/-- A store operation issued to the SSM client.  `put` carries the full
`PutParameterInput` contents the program fills in; `overwrite` mirrors the
`Overwrite *bool` field of `PutParameterInput`, `none` when left unset. -/
inductive StoreOp where
  | get (name : String) (withDecryption : Bool)
  | describeFiltered (name : String)
  | put (name : String) (value : String) (ptype : ParamType)
      (description : String) (overwrite : Option Bool)
deriving DecidableEq, Repr

/-- The SSM client as an abstract collaborator: for each request shape, the
response the remote store would give.  `getParameterResp` answers
`GetParameter` (with decryption), `describeFilteredResp` answers
`DescribeParameters` filtered by exact name, `putResp` answers
`PutParameter` for the given name, value, type and description. -/
structure Client where
  getParameterResp : String → Except String Parameter
  describeFilteredResp : String → Except String (List ParameterMetadata)
  putResp : String → String → ParamType → String → Except String Unit

/-- `getParameterDetails` (main.go:29-40): issues `GetParameter` with
`WithDecryption: true` and returns the result unchanged. -/
def getParameterDetails (client : Client) (name : String) :
    Except String Parameter × List StoreOp :=
  (client.getParameterResp name, [StoreOp.get name true])

/-- `getParameterDescription` (main.go:90-107): issues `DescribeParameters`
filtered by the exact name; errors with "parameter not found" on zero
matches, otherwise returns the first match's description
(`aws.ToString` maps a nil description to `""`). -/
def getParameterDescription (client : Client) (name : String) :
    Except String String × List StoreOp :=
  (match client.describeFilteredResp name with
   | Except.error e => Except.error e
   | Except.ok [] => Except.error "parameter not found"
   | Except.ok (p :: _) => Except.ok (p.description.getD ""),
   [StoreOp.describeFiltered name])

/-- `putParameter` (main.go:109-118): issues `PutParameter` with the
destination name, the source parameter's value and type, and the given
description; the `Overwrite` field is left unset (`none`). -/
def putParameter (client : Client) (name : String) (description : String)
    (dest : Parameter) : Except String Unit × List StoreOp :=
  (client.putResp name dest.value dest.ptype description,
   [StoreOp.put name dest.value dest.ptype description none])

/-- `copyParameter` (main.go:120-138): fetch the source parameter, then its
description, then write the destination; each failure aborts with a
wrapped error message and the trace of the operations issued so far. -/
def copyParameter (client : Client) (sourceName destName : String) :
    Except String Unit × List StoreOp :=
  match (getParameterDetails client sourceName).1 with
  | Except.error e =>
      (Except.error ("failed to get source parameter details: " ++ e),
       (getParameterDetails client sourceName).2)
  | Except.ok sourceParam =>
    match (getParameterDescription client sourceName).1 with
    | Except.error e =>
        (Except.error ("failed to get source parameter description: " ++ e),
         (getParameterDetails client sourceName).2 ++
         (getParameterDescription client sourceName).2)
    | Except.ok description =>
      match (putParameter client destName description sourceParam).1 with
      | Except.error e =>
          (Except.error ("failed to put destination parameter: " ++ e),
           (getParameterDetails client sourceName).2 ++
           (getParameterDescription client sourceName).2 ++
           (putParameter client destName description sourceParam).2)
      | Except.ok _ =>
          (Except.ok (),
           (getParameterDetails client sourceName).2 ++
           (getParameterDescription client sourceName).2 ++
           (putParameter client destName description sourceParam).2)

/-- `generateOldVariableName` (main.go:54-56). -/
def generateOldVariableName (environment variableName : String) : String :=
  "/asset-accounting/" ++ environment ++ "/" ++ variableName

/-- `generateNewVariableName` (main.go:58-61). -/
def generateNewVariableName (environment variableName : String) : String :=
  "/asset-accounting/serviceplatform/" ++ environment ++ "/" ++ variableName

/-- The active `serverlessParams` list (main.go:77-79); the larger list is
commented out in the source. -/
def serverlessParams : List String := ["REDISCLOUD_URL"]

/-- Go map assignment `m[k] = v`: replace the binding if the key is
present, otherwise append it. -/
def insertPair (m : List (String × String)) (k v : String) :
    List (String × String) :=
  if m.any (fun p => p.1 = k) then
    m.map (fun p => if p.1 = k then (k, v) else p)
  else m ++ [(k, v)]

/-- `generateVariableNameMap` (main.go:64-88): build the old→new name map
over `serverlessParams`.  The Go `map[string]string` is modelled as its
association list; iteration order over it is modelled separately, as an
arbitrary permutation of these entries. -/
def generateVariableNameMap (environment : String) : List (String × String) :=
  serverlessParams.foldl
    (fun m param =>
      insertPair m (generateOldVariableName environment param)
        (generateNewVariableName environment param))
    []

/-- The profile-selection conditional of `main` (main.go:141-146):
`profile := "aa_stg"; if environemnt == "production" { profile = "aa_prod" }`. -/
def selectProfile (env : String) : String :=
  if env = "production" then "aa_prod" else "aa_stg"

/-- The hard-coded environment label of `main` (main.go:141), keeping the
source's spelling. -/
def environemnt : String := "staging"

/-- The loop of `main` (main.go:161-173): process the pairs in the given
iteration order; on the first failure, `log.Fatalf` terminates the run, so
no further operation is issued. -/
def runPairs (client : Client) : List (String × String) →
    Except String Unit × List StoreOp
  | [] => (Except.ok (), [])
  | (oldEnvName, newEnName) :: rest =>
    match copyParameter client oldEnvName newEnName with
    | (Except.error e, t) => (Except.error ("failed to copy parameter, " ++ e), t)
    | (Except.ok _, t) =>
      match runPairs client rest with
      | (r, t') => (r, t ++ t')

/-- `getAllParameters` (main.go:14-27): the paginator's pages are given as
a list of page results; the accumulator starts empty, the loop body
appends one page and then unconditionally `break`s, so only the first page
(if any) is consulted. -/
def getAllParameters (pages : List (Except String (List ParameterMetadata))) :
    Except String (List ParameterMetadata) :=
  match pages with
  | [] => Except.ok []
  | page :: _ =>
    match page with
    | Except.error e => Except.error e
    | Except.ok ps => Except.ok ([] ++ ps)

/-! ## Name-mapper properties -/

/-- The map built over the active `serverlessParams` list, in closed form. -/
theorem generateVariableNameMap_eq (E : String) :
    generateVariableNameMap E =
      [("/asset-accounting/" ++ E ++ "/" ++ "REDISCLOUD_URL",
        "/asset-accounting/serviceplatform/" ++ E ++ "/" ++ "REDISCLOUD_URL")] := by
  simp [generateVariableNameMap, serverlessParams, insertPair,
    generateOldVariableName, generateNewVariableName]

/-- C5: for every environment string `E`, the name mapper produces exactly
`|serverlessParams|` pairs, each mapping `/asset-accounting/{E}/{v}` to
`/asset-accounting/serviceplatform/{E}/{v}` with the environment label and
the variable identifier `v` unchanged between the two names. -/
theorem generateVariableNameMap_shape (E : String) :
    (generateVariableNameMap E).length = serverlessParams.length ∧
    ∀ pr ∈ generateVariableNameMap E, ∃ v ∈ serverlessParams,
      pr.1 = "/asset-accounting/" ++ E ++ "/" ++ v ∧
      pr.2 = "/asset-accounting/serviceplatform/" ++ E ++ "/" ++ v := by
  refine ⟨by simp [generateVariableNameMap_eq, serverlessParams], ?_⟩
  intro pr hpr
  rw [generateVariableNameMap_eq] at hpr
  simp only [List.mem_singleton] at hpr
  exact ⟨"REDISCLOUD_URL", by simp [serverlessParams], by simp [hpr],
    by simp [hpr]⟩

/-- Witness for C5 at the concrete environment `"staging"`. -/
theorem generateVariableNameMap_shape_witness :
    (generateVariableNameMap "staging").length = serverlessParams.length ∧
    ∃ v ∈ serverlessParams,
      ("/asset-accounting/staging/REDISCLOUD_URL",
       "/asset-accounting/serviceplatform/staging/REDISCLOUD_URL").1 =
        "/asset-accounting/" ++ "staging" ++ "/" ++ v ∧
      ("/asset-accounting/staging/REDISCLOUD_URL",
       "/asset-accounting/serviceplatform/staging/REDISCLOUD_URL").2 =
        "/asset-accounting/serviceplatform/" ++ "staging" ++ "/" ++ v :=
  ⟨(generateVariableNameMap_shape "staging").1,
   (generateVariableNameMap_shape "staging").2
     ("/asset-accounting/staging/REDISCLOUD_URL",
      "/asset-accounting/serviceplatform/staging/REDISCLOUD_URL")
     (by rw [generateVariableNameMap_eq]; simp)⟩

/-- C6: mapping generation is deterministic and side-effect free: the map
contents depend only on `E`, so two runs that each enumerate the map built
for the same `E` (in whatever iteration order the Go map yields) see the
same set of (oldName, newName) pairs. -/
theorem generateVariableNameMap_deterministic (E : String)
    (l1 l2 : List (String × String))
    (h1 : l1.Perm (generateVariableNameMap E))
    (h2 : l2.Perm (generateVariableNameMap E)) :
    l1.Perm l2 :=
  h1.trans h2.symm

/-- Witness for C6 at the concrete environment `"staging"`. -/
theorem generateVariableNameMap_deterministic_witness :
    (generateVariableNameMap "staging").Perm (generateVariableNameMap "staging") :=
  generateVariableNameMap_deterministic "staging" _ _
    (List.Perm.refl _) (List.Perm.refl _)

/-- C7: the profile conditional of `main` selects `"aa_prod"` exactly when
the environment label is `"production"`, and `"aa_stg"` for every other
label. -/
theorem selectProfile_spec (env : String) :
    (env = "production" → selectProfile env = "aa_prod") ∧
    (env ≠ "production" → selectProfile env = "aa_stg") :=
  ⟨fun h => by simp [selectProfile, h], fun h => by simp [selectProfile, h]⟩

/-- Witness for C7 at the labels `"production"` and `"staging"`. -/
theorem selectProfile_spec_witness :
    selectProfile "production" = "aa_prod" ∧ selectProfile "staging" = "aa_stg" :=
  ⟨(selectProfile_spec "production").1 rfl,
   (selectProfile_spec "staging").2 (by decide)⟩

/-- C8: the iteration order over the pairs is stable across runs: any two
enumerations of the map built for the same `E` (the map holds exactly one
pair, so every Go map iteration order coincides) process the pairs in the
same order. -/
theorem pairIteration_stable (E : String) (l1 l2 : List (String × String))
    (h1 : l1.Perm (generateVariableNameMap E))
    (h2 : l2.Perm (generateVariableNameMap E)) :
    l1 = l2 := by
  rw [generateVariableNameMap_eq] at h1 h2
  rw [List.perm_singleton.mp h1, List.perm_singleton.mp h2]

/-- Witness for C8 at the concrete environment `"staging"`. -/
theorem pairIteration_stable_witness :
    [("/asset-accounting/staging/REDISCLOUD_URL",
      "/asset-accounting/serviceplatform/staging/REDISCLOUD_URL")] =
      generateVariableNameMap "staging" :=
  pairIteration_stable "staging" _ _
    (by rw [generateVariableNameMap_eq]; exact List.Perm.refl _)
    (List.Perm.refl _)

/-! ## Concrete clients used as test fixtures -/

/-- The source parameter of the spec's copy-success scenario. -/
def sampleParam : Parameter :=
  { name := "/ns/staging/REDISCLOUD_URL", value := "redis://x",
    ptype := ParamType.secureString }

/-- A store where every operation succeeds and every parameter looks like
`sampleParam` with description "cache url". -/
def okClient : Client :=
  { getParameterResp := fun _ => Except.ok sampleParam
    describeFilteredResp := fun n =>
      Except.ok [{ name := n, description := some "cache url" }]
    putResp := fun _ _ _ _ => Except.ok () }

/-- A store where every operation fails. -/
def errClient : Client :=
  { getParameterResp := fun _ => Except.error "boom"
    describeFilteredResp := fun _ => Except.error "boom"
    putResp := fun _ _ _ _ => Except.error "boom" }

/-- A store where parameters exist but the filtered metadata listing
returns zero matches. -/
def noMetaClient : Client :=
  { getParameterResp := fun _ => Except.ok sampleParam
    describeFilteredResp := fun _ => Except.ok []
    putResp := fun _ _ _ _ => Except.ok () }

/-! ## Copy-orchestrator properties -/

/-- Inversion: any `put` operation in a `copyParameter` trace has its
overwrite field unset, and both the value fetch and the description fetch
for the source name succeeded. -/
theorem copyParameter_put_inv (client : Client) (s d n v : String)
    (t : ParamType) (dsc : String) (ow : Option Bool)
    (h : StoreOp.put n v t dsc ow ∈ (copyParameter client s d).2) :
    ow = none ∧ (∃ p, client.getParameterResp s = Except.ok p) ∧
      ∃ ds, (getParameterDescription client s).1 = Except.ok ds := by
  unfold copyParameter at h
  split at h
  · simp [getParameterDetails] at h
  · rename_i p heqg
    split at h
    · simp [getParameterDetails, getParameterDescription] at h
    · rename_i ds heqd
      simp only [getParameterDetails] at heqg
      split at h <;>
      · simp [getParameterDetails, getParameterDescription, putParameter] at h
        exact ⟨h.2.2.2.2, ⟨p, heqg⟩, ⟨ds, heqd⟩⟩

/-- C1: if the source fetch, the description lookup and the write all
succeed, `copyParameter` succeeds and the single write it issued targets
the destination name with exactly the source's value, the source's type
(whatever member of the supported set it is) and the description returned
by the metadata lookup for the old name. -/
theorem copyParameter_success_copies (client : Client) (s d : String)
    (p : Parameter) (desc : String)
    (h1 : client.getParameterResp s = Except.ok p)
    (h2 : (getParameterDescription client s).1 = Except.ok desc)
    (h3 : client.putResp d p.value p.ptype desc = Except.ok ()) :
    copyParameter client s d =
      (Except.ok (),
       [StoreOp.get s true, StoreOp.describeFiltered s,
        StoreOp.put d p.value p.ptype desc none]) := by
  have hd2 : (getParameterDescription client s).2 =
      [StoreOp.describeFiltered s] := rfl
  unfold copyParameter
  simp [getParameterDetails, putParameter, h1, h2, h3, hd2]

/-- Witness for C1: the spec's copy-success scenario on `okClient`. -/
theorem copyParameter_success_copies_witness :
    copyParameter okClient "/ns/staging/REDISCLOUD_URL"
        "/ns/sp/staging/REDISCLOUD_URL" =
      (Except.ok (),
       [StoreOp.get "/ns/staging/REDISCLOUD_URL" true,
        StoreOp.describeFiltered "/ns/staging/REDISCLOUD_URL",
        StoreOp.put "/ns/sp/staging/REDISCLOUD_URL" "redis://x"
          ParamType.secureString "cache url" none]) :=
  copyParameter_success_copies okClient "/ns/staging/REDISCLOUD_URL"
    "/ns/sp/staging/REDISCLOUD_URL" sampleParam "cache url" rfl rfl rfl

/-- C2: if the store's get-by-name operation fails for the old name,
`copyParameter` returns the wrapped error and its trace holds no write. -/
theorem copyParameter_sourceMissing (client : Client) (s d e : String)
    (h : client.getParameterResp s = Except.error e) :
    (copyParameter client s d).1 =
      Except.error ("failed to get source parameter details: " ++ e) ∧
    ∀ n v t dsc ow, StoreOp.put n v t dsc ow ∉ (copyParameter client s d).2 := by
  have hval : copyParameter client s d =
      (Except.error ("failed to get source parameter details: " ++ e),
       [StoreOp.get s true]) := by
    unfold copyParameter
    simp [getParameterDetails, h]
  rw [hval]
  simp

/-- Witness for C2 on `errClient`. -/
theorem copyParameter_sourceMissing_witness :
    (copyParameter errClient "/old" "/new").1 =
      Except.error ("failed to get source parameter details: " ++ "boom") ∧
    ∀ n v t dsc ow,
      StoreOp.put n v t dsc ow ∉ (copyParameter errClient "/old" "/new").2 :=
  copyParameter_sourceMissing errClient "/old" "/new" "boom" rfl

/-- C3: if the filtered metadata listing for the old name returns zero
matches, the description lookup fails with "parameter not found",
`copyParameter` returns an error and its trace holds no write; moreover a
write ever appears in a `copyParameter` trace only when both the value
fetch and the description fetch succeeded. -/
theorem copyParameter_descriptionMissing (client : Client) (s d : String)
    (h : client.describeFilteredResp s = Except.ok []) :
    (getParameterDescription client s).1 = Except.error "parameter not found" ∧
    (∃ msg, (copyParameter client s d).1 = Except.error msg) ∧
    (∀ n v t dsc ow, StoreOp.put n v t dsc ow ∉ (copyParameter client s d).2) ∧
    ∀ (client' : Client) (sn dn n v : String) (t : ParamType)
      (dsc : String) (ow : Option Bool),
      StoreOp.put n v t dsc ow ∈ (copyParameter client' sn dn).2 →
      (∃ p, client'.getParameterResp sn = Except.ok p) ∧
        ∃ ds, (getParameterDescription client' sn).1 = Except.ok ds := by
  have hdesc : (getParameterDescription client s).1 =
      Except.error "parameter not found" := by
    simp [getParameterDescription, h]
  refine ⟨hdesc, ?_, ?_, ?_⟩
  · cases hg : client.getParameterResp s with
    | error e =>
      exact ⟨_, (copyParameter_sourceMissing client s d e hg).1⟩
    | ok p =>
      refine ⟨"failed to get source parameter description: parameter not found", ?_⟩
      unfold copyParameter
      simp [getParameterDetails, hg, hdesc]
  · intro n v t dsc ow hmem
    obtain ⟨-, -, ds, hds⟩ := copyParameter_put_inv client s d n v t dsc ow hmem
    rw [hdesc] at hds
    cases hds
  · intro client' sn dn n v t dsc ow hmem
    exact (copyParameter_put_inv client' sn dn n v t dsc ow hmem).2

/-- Witness for C3 on `noMetaClient`. -/
theorem copyParameter_descriptionMissing_witness :
    (getParameterDescription noMetaClient "/old").1 =
      Except.error "parameter not found" ∧
    (∃ msg, (copyParameter noMetaClient "/old" "/new").1 = Except.error msg) ∧
    (∀ n v t dsc ow,
      StoreOp.put n v t dsc ow ∉ (copyParameter noMetaClient "/old" "/new").2) ∧
    ∀ (client' : Client) (sn dn n v : String) (t : ParamType)
      (dsc : String) (ow : Option Bool),
      StoreOp.put n v t dsc ow ∈ (copyParameter client' sn dn).2 →
      (∃ p, client'.getParameterResp sn = Except.ok p) ∧
        ∃ ds, (getParameterDescription client' sn).1 = Except.ok ds :=
  copyParameter_descriptionMissing noMetaClient "/old" "/new" rfl

/-- C4: fail-fast — if every pair before some failing pair succeeds, the
run produced by the loop of `main` stops at the failing pair: it returns
that pair's wrapped error and its trace holds exactly the operations of the
already-processed pairs; no store operation is issued for any pair after
the failing one. -/
theorem runPairs_failFast (client : Client) (pre : List (String × String))
    (o nn e : String) (rest : List (String × String))
    (hpre : ∀ pr ∈ pre, (copyParameter client pr.1 pr.2).1 = Except.ok ())
    (h : (copyParameter client o nn).1 = Except.error e) :
    runPairs client (pre ++ (o, nn) :: rest) =
      (Except.error ("failed to copy parameter, " ++ e),
       (pre.map (fun pr => (copyParameter client pr.1 pr.2).2)).flatten ++
         (copyParameter client o nn).2) := by
  induction pre with
  | nil =>
    rcases hcp : copyParameter client o nn with ⟨r, t0⟩
    rw [hcp] at h
    simp only [Prod.fst] at h
    subst h
    simp [runPairs, hcp]
  | cons hd tl ih =>
    rcases hd with ⟨a, b⟩
    have hok : (copyParameter client a b).1 = Except.ok () := by
      exact hpre (a, b) (List.mem_cons_self _ _)
    rcases hcp : copyParameter client a b with ⟨r0, t0⟩
    rw [hcp] at hok
    simp only [Prod.fst] at hok
    subst hok
    have ih2 := ih (fun pr hin => hpre pr (List.mem_cons_of_mem _ hin))
    simp only [List.cons_append, runPairs, hcp, List.map_cons,
      List.flatten_cons, List.append_eq, List.append_assoc, ih2]

/-- A store where the parameter at `"/a"` exists and everything about it
succeeds, while fetching any other name fails. -/
def mixedClient : Client :=
  { getParameterResp := fun n =>
      if n = "/a" then Except.ok sampleParam else Except.error "boom"
    describeFilteredResp := fun n =>
      Except.ok [{ name := n, description := some "cache url" }]
    putResp := fun _ _ _ _ => Except.ok () }

/-- Witness for C4: three pairs where the second fails — the run stops
there and issues nothing for the third pair. -/
theorem runPairs_failFast_witness :
    runPairs mixedClient ([("/a", "/a2")] ++ ("/b", "/b2") :: [("/c", "/c2")]) =
      (Except.error ("failed to copy parameter, " ++
         ("failed to get source parameter details: " ++ "boom")),
       (List.map (fun pr => (copyParameter mixedClient pr.1 pr.2).2)
          [("/a", "/a2")]).flatten ++
         (copyParameter mixedClient "/b" "/b2").2) :=
  runPairs_failFast mixedClient [("/a", "/a2")] "/b" "/b2"
    ("failed to get source parameter details: " ++ "boom") [("/c", "/c2")]
    (by intro pr hpr
        rw [List.mem_singleton] at hpr
        subst hpr
        rfl)
    rfl

/-- C9: `getAllParameters` returns at most the first page: whenever the
listing has a second page, the result is exactly the first page, and every
metadata entry of the second page absent from the first page is omitted
from the result. -/
theorem getAllParameters_firstPageOnly (p1 p2 : List ParameterMetadata)
    (rest : List (Except String (List ParameterMetadata))) :
    getAllParameters (Except.ok p1 :: Except.ok p2 :: rest) = Except.ok p1 ∧
    ∀ m ∈ p2, m ∉ p1 → ∀ res,
      getAllParameters (Except.ok p1 :: Except.ok p2 :: rest) = Except.ok res →
      m ∉ res := by
  refine ⟨rfl, ?_⟩
  intro m hm2 hm1 res hres
  simp [getAllParameters] at hres
  subst hres
  exact hm1

/-- First-page fixture for the C9 witness. -/
def pageOneMeta : ParameterMetadata := { name := "a", description := none }

/-- Second-page fixture for the C9 witness. -/
def pageTwoMeta : ParameterMetadata := { name := "b", description := none }

/-- Witness for C9: a two-page listing where the second page's entry is
dropped. -/
theorem getAllParameters_firstPageOnly_witness :
    getAllParameters [Except.ok [pageOneMeta], Except.ok [pageTwoMeta]] =
      Except.ok [pageOneMeta] ∧
    pageTwoMeta ∉ [pageOneMeta] :=
  ⟨(getAllParameters_firstPageOnly [pageOneMeta] [pageTwoMeta] []).1,
   (getAllParameters_firstPageOnly [pageOneMeta] [pageTwoMeta] []).2 pageTwoMeta
     (List.mem_singleton.mpr rfl) (by decide) [pageOneMeta]
     (getAllParameters_firstPageOnly [pageOneMeta] [pageTwoMeta] []).1⟩

/-- C10: every write the run ever issues leaves the overwrite field unset
(`none`), for any client and any pair list. -/
theorem runPairs_overwrite_unset (client : Client)
    (pairs : List (String × String)) (n v : String) (t : ParamType)
    (dsc : String) (ow : Option Bool)
    (h : StoreOp.put n v t dsc ow ∈ (runPairs client pairs).2) :
    ow = none := by
  induction pairs with
  | nil => simp [runPairs] at h
  | cons pr rest ih =>
    rcases pr with ⟨o, nn⟩
    rcases hcp : copyParameter client o nn with ⟨r, t0⟩
    cases r with
    | error e =>
      simp only [runPairs, hcp] at h
      exact (copyParameter_put_inv client o nn n v t dsc ow
        (by rw [hcp]; exact h)).1
    | ok u =>
      simp only [runPairs, hcp] at h
      rcases List.mem_append.mp h with hl | hr
      · exact (copyParameter_put_inv client o nn n v t dsc ow
          (by rw [hcp]; exact hl)).1
      · exact ih hr

/-- Witness for C10: the write issued in the copy-success scenario is in
the run's trace with its overwrite field unset. -/
theorem runPairs_overwrite_unset_witness :
    StoreOp.put "/ns/sp/staging/REDISCLOUD_URL" "redis://x"
        ParamType.secureString "cache url" none ∈
      (runPairs okClient [("/ns/staging/REDISCLOUD_URL",
        "/ns/sp/staging/REDISCLOUD_URL")]).2 ∧
    (none : Option Bool) = none := by
  have hmem : StoreOp.put "/ns/sp/staging/REDISCLOUD_URL" "redis://x"
      ParamType.secureString "cache url" none ∈
      (runPairs okClient [("/ns/staging/REDISCLOUD_URL",
        "/ns/sp/staging/REDISCLOUD_URL")]).2 := by decide
  exact ⟨hmem,
    runPairs_overwrite_unset okClient
      [("/ns/staging/REDISCLOUD_URL", "/ns/sp/staging/REDISCLOUD_URL")]
      "/ns/sp/staging/REDISCLOUD_URL" "redis://x" ParamType.secureString
      "cache url" none hmem⟩
